import Mathlib

/-!
Shallow embedding of the wible library (src/lib.rs): the BluetoothAddress
codec, the CharacteristicProperties bitflags decoder, and the
CharacteristicIO read/write/notify state machine, together with theorems
about them.

Text is modelled as the list of Unicode code points of the Rust string.
Code 58 is the colon, 43 the plus sign, 48 to 57 the decimal digits,
65 to 90 and 97 to 122 the latin letters.
-/

namespace Wible

/-! ### Address codec (BluetoothAddress) -/

/-- Rust str split on the colon character: yields the (possibly empty)
chunks between colons, one more chunk than there are colons. -/
def splitOnColon : List Nat → List (List Nat)
  | [] => [[]]
  | c :: cs =>
    if c = 58 then [] :: splitOnColon cs
    else
      match splitOnColon cs with
      | [] => [[c]]
      | p :: ps => (c :: p) :: ps

/-- Rust char to_digit with radix 16: decimal digits, then the letters a
to f in either case. -/
def hexDigitVal (c : Nat) : Option Nat :=
  if 48 ≤ c ∧ c ≤ 57 then some (c - 48)
  else if 97 ≤ c ∧ c ≤ 102 then some (c - 97 + 10)
  else if 65 ≤ c ∧ c ≤ 70 then some (c - 65 + 10)
  else none

/-- Digit-accumulation loop of u8 from_str_radix with radix 16: the
checked multiply and add fail as soon as the value leaves the u8 range. -/
def fromStrRadix16Loop : List Nat → Nat → Option Nat
  | [], acc => some acc
  | c :: cs, acc =>
    match hexDigitVal c with
    | none => none
    | some d =>
      if 255 < acc * 16 + d then none else fromStrRadix16Loop cs (acc * 16 + d)

/-- Rust u8 from_str_radix with radix 16: empty input fails, a leading
plus sign is accepted when digits follow, a minus sign on an unsigned
type fails, then the digit loop runs. -/
def fromStrRadix16 : List Nat → Option Nat
  | [] => none
  | c :: cs =>
    if c = 43 then (if cs = [] then none else fromStrRadix16Loop cs 0)
    else fromStrRadix16Loop (c :: cs) 0

/-- Error type of BluetoothAddress parsing. -/
inductive BluetoothAddressParseError
  | IncorrectSegments
  | InvalidNumber
  deriving DecidableEq, Repr

/-- Loop of FromStr for BluetoothAddress: the segments are visited in
reverse order and the running index becomes the byte index of the
little-endian value, so a segment contributes val * 256 ^ index. -/
def parseRevLoop : List (List Nat) → Nat → Except BluetoothAddressParseError Nat
  | [], _ => Except.ok 0
  | p :: ps, index =>
    match fromStrRadix16 p with
    | none => Except.error BluetoothAddressParseError.InvalidNumber
    | some val => (parseRevLoop ps (index + 1)).map (fun rest => rest + val * 256 ^ index)

/-- FromStr for BluetoothAddress: split on colons, require exactly six
segments, then assemble the reversed segments little-endian. -/
def from_str (s : List Nat) : Except BluetoothAddressParseError Nat :=
  let parts := splitOnColon s
  if parts.length = 6 then parseRevLoop parts.reverse 0
  else Except.error BluetoothAddressParseError.IncorrectSegments

/-- BluetoothAddress bytes: the six low bytes of the 64-bit value, most
significant first (to_be_bytes with the top two bytes dropped). -/
def addrBytes (x : Nat) : List Nat :=
  [x / 2 ^ 40 % 256, x / 2 ^ 32 % 256, x / 2 ^ 24 % 256,
   x / 2 ^ 16 % 256, x / 2 ^ 8 % 256, x % 256]

/-- Uppercase hexadecimal digit code for a value below 16. -/
def toHexDigit (n : Nat) : Nat :=
  if n < 10 then 48 + n else 65 + (n - 10)

/-- Two-digit uppercase hexadecimal rendering of a byte, as the format
string with 02X renders a u8. -/
def formatByte (b : Nat) : List Nat :=
  [toHexDigit (b / 16), toHexDigit (b % 16)]

/-- Join chunks with a colon between consecutive chunks. -/
def joinColon : List (List Nat) → List Nat
  | [] => []
  | [p] => p
  | p :: ps => p ++ 58 :: joinColon ps

/-- BluetoothAddress hex_string: format each byte as two uppercase hex
digits and join with colons. -/
def hex_string (x : Nat) : List Nat :=
  joinColon ((addrBytes x).map formatByte)

/-- ASCII uppercasing, the effect str to_uppercase has on the ASCII-only
inputs considered here. -/
def toUpperCode (c : Nat) : Nat :=
  if 97 ≤ c ∧ c ≤ 122 then c - 32 else c

/-- A hexadecimal digit code, accepted by the radix-16 digit parser. -/
def isHexDigitCode (c : Nat) : Bool :=
  (hexDigitVal c).isSome

/-- A segment made of exactly two hexadecimal digit codes. -/
def isHexPair : List Nat → Bool
  | [a, b] => isHexDigitCode a && isHexDigitCode b
  | _ => false

/-! ### Characteristic properties (bitflags decoder) -/

/-- Decoded characteristic properties, a bitmask-backed flag set. -/
structure CharacteristicProperties where
  bits : Nat
  deriving DecidableEq, Repr

namespace CharacteristicProperties

def BROADCAST : CharacteristicProperties := ⟨1⟩
def READ : CharacteristicProperties := ⟨2⟩
def WRITE_WITHOUT_RESPONSE : CharacteristicProperties := ⟨4⟩
def WRITE : CharacteristicProperties := ⟨8⟩
def NOTIFY : CharacteristicProperties := ⟨16⟩
def INDICATE : CharacteristicProperties := ⟨32⟩
def AUTHENTICATED_SIGNED_WRITES : CharacteristicProperties := ⟨64⟩
def EXTENDED_PROPERTIES : CharacteristicProperties := ⟨128⟩
def RELIABLE_WRITES : CharacteristicProperties := ⟨256⟩
def WRITABLE_AUXILIARIES : CharacteristicProperties := ⟨512⟩

/-- Union of the ten defined flags, the bitflags all value. -/
def allFlags : CharacteristicProperties := ⟨1023⟩

/-- The ten defined flags as a list. -/
def flagList : List CharacteristicProperties :=
  [BROADCAST, READ, WRITE_WITHOUT_RESPONSE, WRITE, NOTIFY, INDICATE,
   AUTHENTICATED_SIGNED_WRITES, EXTENDED_PROPERTIES, RELIABLE_WRITES,
   WRITABLE_AUXILIARIES]

/-- bitflags contains: every bit of the other value is present. -/
def contains (p other : CharacteristicProperties) : Bool :=
  (p.bits &&& other.bits) == other.bits

/-- bitflags from_bits on the raw u32: any set bit outside the defined
flags (the complement of allFlags within 32 bits) rejects the value. -/
def from_bits (v : Nat) : Option CharacteristicProperties :=
  if v &&& (2 ^ 32 - 1 - allFlags.bits) = 0 then some ⟨v⟩ else none

end CharacteristicProperties

/-- A GATT characteristic, abstracted to the outcome of its platform
characteristic_properties call: none models a failing platform call,
some v the raw u32 bitmask it returns. -/
structure Characteristic where
  rawProperties : Option Nat
  deriving DecidableEq, Repr

/-- Characteristic properties accessor: none when the platform call
fails, otherwise from_bits of the raw ABI value. -/
def Characteristic.properties (c : Characteristic) : Option CharacteristicProperties :=
  match c.rawProperties with
  | none => none
  | some value => CharacteristicProperties.from_bits value

/-! ### CharacteristicIO state machine -/

/-- The client characteristic configuration descriptor value written to
the device: Notify enables notifications, Disable models the None value
that turns them off. -/
inductive CccdValue
  | Notify
  | Disable
  deriving DecidableEq, Repr

/-- One platform call issued by the wrapper, recorded for a trace. -/
inductive PlatformCall
  | uncachedRead
  | writeValue (data : List Nat)
  | writeCccd (v : CccdValue)
  deriving DecidableEq, Repr

/-- Outcome of a wrapper operation: a value, a recoverable error returned
to the caller, or a panic signalling a programming error. -/
inductive Outcome (α : Type)
  | ok (val : α)
  | error
  | panicked
  deriving DecidableEq, Repr

/-- Error-log events emitted by the wrapper. -/
inductive LogEvent
  | removeNotifyFailed
  deriving DecidableEq, Repr

/-- Characteristic read: one uncached platform fetch. The fetch argument
is the data the platform returns, none modelling a failing call; the
trace records the fetch in either case. -/
def Characteristic.read (c : Characteristic) (fetch : Option (List Nat)) :
    Outcome (List Nat) × List PlatformCall :=
  match fetch with
  | some data => (Outcome.ok data, [PlatformCall.uncachedRead])
  | none => (Outcome.error, [PlatformCall.uncachedRead])

/-- Characteristic write: one platform write of exactly the given bytes;
writeOk models the platform result. -/
def Characteristic.write (c : Characteristic) (writeOk : Bool) (data : List Nat) :
    Outcome Unit × List PlatformCall :=
  (if writeOk then Outcome.ok () else Outcome.error, [PlatformCall.writeValue data])

/-- CharacteristicIO state: the characteristic, the internal byte buffer,
and for notify-fed handles the receiver, modelled as the queue of already
delivered but not yet consumed notification payloads. -/
structure CharacteristicIo where
  characteristic : Characteristic
  buf : List Nat
  rx : Option (List (List Nat))
  deriving DecidableEq, Repr

/-- Platform behaviour during CharacteristicIO construction. -/
structure NewEnv where
  cccdWriteOk : Bool
  registerOk : Bool
  deriving DecidableEq, Repr

/-- Platform behaviour during one read call: timedArrival is the payload
a timed receive obtains within its one second window when the channel
queue is empty (none is a timeout), fetch is the platform answer to an
uncached read. -/
structure ReadEnv where
  timedArrival : Option (List Nat)
  fetch : Option (List Nat)
  deriving DecidableEq, Repr

/-- Fixed timeout of the timed receive, in seconds. -/
def notifyReadTimeoutSecs : Nat := 1

/-- Configure notifications: write the Notify configuration descriptor
and register the value-changed handler; on success the fresh channel
starts with an empty queue. Either platform step may fail, and the
failure propagates out of construction. -/
def CharacteristicIo.configure_notify (c : Characteristic) (env : NewEnv) :
    Outcome (List (List Nat)) × List PlatformCall :=
  if env.cccdWriteOk then
    if env.registerOk then (Outcome.ok [], [PlatformCall.writeCccd CccdValue.Notify])
    else (Outcome.error, [PlatformCall.writeCccd CccdValue.Notify])
  else (Outcome.error, [PlatformCall.writeCccd CccdValue.Notify])

/-- Construction of a CharacteristicIO: notifications are configured only
when the decoded properties contain NOTIFY; otherwise, including when the
properties cannot be decoded, the handle is poll-fed. No capability is
checked here and the buffer starts empty. -/
def CharacteristicIo.new (c : Characteristic) (env : NewEnv) :
    Outcome CharacteristicIo × List PlatformCall :=
  match c.properties with
  | some props =>
    if props.contains CharacteristicProperties.NOTIFY then
      match CharacteristicIo.configure_notify c env with
      | (Outcome.ok rx, calls) => (Outcome.ok ⟨c, [], some rx⟩, calls)
      | (_, calls) => (Outcome.error, calls)
    else (Outcome.ok ⟨c, [], none⟩, [])
  | none => (Outcome.ok ⟨c, [], none⟩, [])

/-- Common tail of read: copy at most the caller length from the internal
buffer, removing the copied bytes (FIFO). -/
def CharacteristicIo.drain (st : CharacteristicIo) (callerLen : Nat) :
    (Nat × List Nat) × CharacteristicIo :=
  let len := min callerLen st.buf.length
  ((len, st.buf.take len), { st with buf := st.buf.drop len })

/-- Body of read after the capability gate. Notify-fed handles pull at
most one payload from the channel: a timed receive when the buffer is
empty, a non-blocking try otherwise (both return the queue head at once
when one is queued). Poll-fed handles fetch from the platform only when
the buffer is empty. The common tail then drains the buffer. -/
def CharacteristicIo.readBody (st : CharacteristicIo) (env : ReadEnv) (callerLen : Nat) :
    Outcome (Nat × List Nat) × CharacteristicIo × List PlatformCall :=
  match st.rx with
  | some queue =>
    let recv : Option (List Nat) × List (List Nat) :=
      if st.buf.isEmpty then
        match queue with
        | payload :: rest => (some payload, rest)
        | [] => (env.timedArrival, [])
      else
        match queue with
        | payload :: rest => (some payload, rest)
        | [] => (none, [])
    let st1 : CharacteristicIo :=
      { st with
        buf := match recv.1 with
          | some data => st.buf ++ data
          | none => st.buf,
        rx := some recv.2 }
    let res := st1.drain callerLen
    (Outcome.ok res.1, res.2, [])
  | none =>
    if st.buf.isEmpty then
      match Characteristic.read st.characteristic env.fetch with
      | (Outcome.ok data, calls) =>
        let st1 : CharacteristicIo := { st with buf := st.buf ++ data }
        let res := st1.drain callerLen
        (Outcome.ok res.1, res.2, calls)
      | (_, calls) => (Outcome.error, st, calls)
    else
      let res := st.drain callerLen
      (Outcome.ok res.1, res.2, [])

/-- Read for a CharacteristicIO: panic when the decoded properties lack
READ, otherwise run the body; an undecodable property set skips the
gate. -/
def CharacteristicIo.read (st : CharacteristicIo) (env : ReadEnv) (callerLen : Nat) :
    Outcome (Nat × List Nat) × CharacteristicIo × List PlatformCall :=
  match st.characteristic.properties with
  | some props =>
    if props.contains CharacteristicProperties.READ then st.readBody env callerLen
    else (Outcome.panicked, st, [])
  | none => st.readBody env callerLen

/-- Write for a CharacteristicIO: panic when the decoded properties lack
WRITE (before any platform call), otherwise one platform write of the
whole slice, reporting the full length on success. -/
def CharacteristicIo.write (st : CharacteristicIo) (writeOk : Bool) (data : List Nat) :
    Outcome Nat × CharacteristicIo × List PlatformCall :=
  match st.characteristic.properties with
  | some props =>
    if props.contains CharacteristicProperties.WRITE then
      match Characteristic.write st.characteristic writeOk data with
      | (Outcome.ok _, calls) => (Outcome.ok data.length, st, calls)
      | (_, calls) => (Outcome.error, st, calls)
    else (Outcome.panicked, st, [])
  | none =>
    match Characteristic.write st.characteristic writeOk data with
    | (Outcome.ok _, calls) => (Outcome.ok data.length, st, calls)
    | (_, calls) => (Outcome.error, st, calls)

/-- Flush for a CharacteristicIO: the same WRITE gate (panic when the
decoded properties lack WRITE), then success without any platform call
or state change. -/
def CharacteristicIo.flush (st : CharacteristicIo) :
    Outcome Unit × CharacteristicIo × List PlatformCall :=
  match st.characteristic.properties with
  | some props =>
    if props.contains CharacteristicProperties.WRITE then (Outcome.ok (), st, [])
    else (Outcome.panicked, st, [])
  | none => (Outcome.ok (), st, [])

/-- Platform behaviour during drop: initOk is the immediate result of the
configuration-descriptor write call, completeOk the result its async
operation later reports. -/
structure DropEnv where
  initOk : Bool
  completeOk : Bool
  deriving DecidableEq, Repr

/-- Drop for a CharacteristicIO: poll-fed handles do nothing; notify-fed
handles attempt one Disable configuration-descriptor write. The source
keeps only the error of the immediate call (map followed by err), so a
failure reported on completion is discarded without a log entry; nothing
is ever propagated, the return carries only the trace and the log. -/
def CharacteristicIo.drop (st : CharacteristicIo) (env : DropEnv) :
    List PlatformCall × List LogEvent :=
  match st.rx with
  | none => ([], [])
  | some _ =>
    ([PlatformCall.writeCccd CccdValue.Disable],
     if env.initOk then [] else [LogEvent.removeNotifyFailed])

/-! ### Codec lemmas -/

set_option maxRecDepth 8192

theorem splitOnColon_ne_nil : ∀ s : List Nat, splitOnColon s ≠ []
  | [] => by simp [splitOnColon]
  | c :: cs => by
    simp only [splitOnColon]
    split
    · simp
    · split <;> simp

theorem splitOnColon_append (a r : List Nat) (h : 58 ∉ a) :
    splitOnColon (a ++ 58 :: r) = a :: splitOnColon r := by
  induction a with
  | nil => simp [splitOnColon]
  | cons c cs ih =>
    have hc : ¬ c = 58 := by
      intro e
      exact h (by simp [e])
    have hcs : 58 ∉ cs := by
      intro m
      exact h (List.mem_cons_of_mem _ m)
    simp only [List.cons_append, splitOnColon, if_neg hc, List.append_eq, ih hcs]

theorem splitOnColon_noColon (a : List Nat) (h : 58 ∉ a) : splitOnColon a = [a] := by
  induction a with
  | nil => rfl
  | cons c cs ih =>
    have hc : ¬ c = 58 := by
      intro e
      exact h (by simp [e])
    have hcs : 58 ∉ cs := by
      intro m
      exact h (List.mem_cons_of_mem _ m)
    simp only [splitOnColon, if_neg hc, ih hcs]

theorem joinColon_cons (p : List Nat) (ps : List (List Nat)) (h : ps ≠ []) :
    joinColon (p :: ps) = p ++ 58 :: joinColon ps := by
  cases ps with
  | nil => exact absurd rfl h
  | cons q qs => rfl

theorem joinColon_splitOnColon : ∀ s : List Nat, joinColon (splitOnColon s) = s
  | [] => rfl
  | c :: cs => by
    by_cases hc : c = 58
    · subst hc
      have h1 : splitOnColon (58 :: cs) = [] :: splitOnColon cs := by
        simp [splitOnColon]
      rw [h1, joinColon_cons _ _ (splitOnColon_ne_nil cs)]
      simp [joinColon_splitOnColon cs]
    · simp only [splitOnColon, if_neg hc]
      cases h : splitOnColon cs with
      | nil => exact absurd h (splitOnColon_ne_nil cs)
      | cons p ps =>
        have ih := joinColon_splitOnColon cs
        rw [h] at ih
        cases ps with
        | nil =>
          simp only [joinColon] at ih ⊢
          simp [ih]
        | cons q qs =>
          simp only [joinColon] at ih ⊢
          simp [ih]

theorem splitOnColon_join6 (a b c d e f : List Nat)
    (ha : 58 ∉ a) (hb : 58 ∉ b) (hc : 58 ∉ c) (hd : 58 ∉ d) (he : 58 ∉ e) (hf : 58 ∉ f) :
    splitOnColon (joinColon [a, b, c, d, e, f]) = [a, b, c, d, e, f] := by
  have hj : joinColon [a, b, c, d, e, f] =
      a ++ 58 :: (b ++ 58 :: (c ++ 58 :: (d ++ 58 :: (e ++ 58 :: f)))) := rfl
  rw [hj, splitOnColon_append _ _ ha, splitOnColon_append _ _ hb, splitOnColon_append _ _ hc,
      splitOnColon_append _ _ hd, splitOnColon_append _ _ he, splitOnColon_noColon _ hf]

theorem fromStrRadix16_formatByte : ∀ b < 256, fromStrRadix16 (formatByte b) = some b := by
  decide

theorem formatByte_noColon : ∀ b < 256, 58 ∉ formatByte b := by
  decide

theorem parseRevLoop6 (q0 q1 q2 q3 q4 q5 : List Nat) (v0 v1 v2 v3 v4 v5 : Nat)
    (h0 : fromStrRadix16 q0 = some v0) (h1 : fromStrRadix16 q1 = some v1)
    (h2 : fromStrRadix16 q2 = some v2) (h3 : fromStrRadix16 q3 = some v3)
    (h4 : fromStrRadix16 q4 = some v4) (h5 : fromStrRadix16 q5 = some v5) :
    parseRevLoop [q0, q1, q2, q3, q4, q5] 0 =
      Except.ok (v5 * 256 ^ 5 + v4 * 256 ^ 4 + v3 * 256 ^ 3 + v2 * 256 ^ 2 + v1 * 256 + v0) := by
  simp only [parseRevLoop, h0, h1, h2, h3, h4, h5, Except.map]
  norm_num

theorem parseRevLoop_invalid : ∀ (l : List (List Nat)) (i : Nat),
    (∃ p ∈ l, fromStrRadix16 p = none) →
    parseRevLoop l i = Except.error BluetoothAddressParseError.InvalidNumber
  | [], _, h => by simp at h
  | p :: ps, i, h => by
    rcases h with ⟨q, hq, hnone⟩
    rcases List.mem_cons.mp hq with rfl | hmem
    · simp [parseRevLoop, hnone]
    · cases hp : fromStrRadix16 p with
      | none => simp [parseRevLoop, hp]
      | some v =>
        simp only [parseRevLoop, hp, parseRevLoop_invalid ps (i + 1) ⟨q, hmem, hnone⟩,
          Except.map]

theorem from_str_eq_of_split6 (s p0 p1 p2 p3 p4 p5 : List Nat)
    (h : splitOnColon s = [p0, p1, p2, p3, p4, p5]) :
    from_str s = parseRevLoop [p5, p4, p3, p2, p1, p0] 0 := by
  unfold from_str
  rw [h]
  rfl

theorem from_str_eq_of_split_ne6 (s : List Nat) (h : (splitOnColon s).length ≠ 6) :
    from_str s = Except.error BluetoothAddressParseError.IncorrectSegments := by
  simp only [from_str]
  rw [if_neg h]

/-! ### Claim theorems for the address codec -/

/-- C4: for every valid address x (a 48-bit value stored with the top two
bytes zero), parsing the formatted colon-hex text of x yields x again. -/
theorem C4_parse_format_roundtrip (x : Nat) (hx : x < 2 ^ 48) :
    from_str (hex_string x) = Except.ok x := by
  have hm : ∀ y : Nat, y % 256 < 256 := fun y => Nat.mod_lt _ (by norm_num)
  have hs : splitOnColon (hex_string x) =
      [formatByte (x / 2 ^ 40 % 256), formatByte (x / 2 ^ 32 % 256),
       formatByte (x / 2 ^ 24 % 256), formatByte (x / 2 ^ 16 % 256),
       formatByte (x / 2 ^ 8 % 256), formatByte (x % 256)] := by
    unfold hex_string addrBytes
    simp only [List.map]
    exact splitOnColon_join6 _ _ _ _ _ _
      (formatByte_noColon _ (hm _)) (formatByte_noColon _ (hm _))
      (formatByte_noColon _ (hm _)) (formatByte_noColon _ (hm _))
      (formatByte_noColon _ (hm _)) (formatByte_noColon _ (hm _))
  rw [from_str_eq_of_split6 _ _ _ _ _ _ _ hs]
  rw [parseRevLoop6 _ _ _ _ _ _ _ _ _ _ _ _
    (fromStrRadix16_formatByte _ (hm _)) (fromStrRadix16_formatByte _ (hm _))
    (fromStrRadix16_formatByte _ (hm _)) (fromStrRadix16_formatByte _ (hm _))
    (fromStrRadix16_formatByte _ (hm _)) (fromStrRadix16_formatByte _ (hm _))]
  congr 1
  have e40 : (2 : Nat) ^ 40 = 1099511627776 := by norm_num
  have e32 : (2 : Nat) ^ 32 = 4294967296 := by norm_num
  have e24 : (2 : Nat) ^ 24 = 16777216 := by norm_num
  have e16 : (2 : Nat) ^ 16 = 65536 := by norm_num
  have e8 : (2 : Nat) ^ 8 = 256 := by norm_num
  have f5 : (256 : Nat) ^ 5 = 1099511627776 := by norm_num
  have f4 : (256 : Nat) ^ 4 = 4294967296 := by norm_num
  have f3 : (256 : Nat) ^ 3 = 16777216 := by norm_num
  have f2 : (256 : Nat) ^ 2 = 65536 := by norm_num
  have e48 : (2 : Nat) ^ 48 = 281474976710656 := by norm_num
  rw [e40, e32, e24, e16, e8, f5, f4, f3, f2]
  rw [e48] at hx
  omega

/-- C4 witness at the known vector value. -/
theorem C4_parse_format_roundtrip_witness :
    from_str (hex_string 220989372923853) = Except.ok 220989372923853 :=
  C4_parse_format_roundtrip 220989372923853 (by norm_num)

/-- C8: address parse is fully specified: any input whose colon-split
segment count is not six fails with IncorrectSegments; with six segments,
any segment that is not a valid base-16 byte fails with InvalidNumber;
otherwise the segments are assembled little-endian, byte zero of the
value coming from the last text segment; and the known vector
C8:FD:19:12:7F:CD parses to 220989372923853. -/
theorem C8_parse_fully_specified :
    (∀ s : List Nat, (splitOnColon s).length ≠ 6 →
      from_str s = Except.error BluetoothAddressParseError.IncorrectSegments) ∧
    (∀ s : List Nat, (splitOnColon s).length = 6 →
      (∃ p ∈ splitOnColon s, fromStrRadix16 p = none) →
      from_str s = Except.error BluetoothAddressParseError.InvalidNumber) ∧
    (∀ s p0 p1 p2 p3 p4 p5 v0 v1 v2 v3 v4 v5,
      splitOnColon s = [p0, p1, p2, p3, p4, p5] →
      fromStrRadix16 p0 = some v0 → fromStrRadix16 p1 = some v1 →
      fromStrRadix16 p2 = some v2 → fromStrRadix16 p3 = some v3 →
      fromStrRadix16 p4 = some v4 → fromStrRadix16 p5 = some v5 →
      from_str s = Except.ok
        (v5 + v4 * 256 + v3 * 256 ^ 2 + v2 * 256 ^ 3 + v1 * 256 ^ 4 + v0 * 256 ^ 5)) ∧
    from_str [67, 56, 58, 70, 68, 58, 49, 57, 58, 49, 50, 58, 55, 70, 58, 67, 68] =
      Except.ok 220989372923853 := by
  refine ⟨fun s h => from_str_eq_of_split_ne6 s h, ?_, ?_, ?_⟩
  · intro s hlen hex
    simp only [from_str]
    rw [if_pos hlen]
    rcases hex with ⟨p, hp, hnone⟩
    exact parseRevLoop_invalid _ 0 ⟨p, List.mem_reverse.mpr hp, hnone⟩
  · intro s p0 p1 p2 p3 p4 p5 v0 v1 v2 v3 v4 v5 h h0 h1 h2 h3 h4 h5
    rw [from_str_eq_of_split6 _ _ _ _ _ _ _ h,
        parseRevLoop6 _ _ _ _ _ _ _ _ _ _ _ _ h5 h4 h3 h2 h1 h0]
    congr 1
    ring
  · rfl

/-- C8 witness: the segment-count failure on the word test and the
invalid-hex failure on C8:FD:ZZ:12:7F:CD. -/
theorem C8_parse_fully_specified_witness :
    from_str [116, 101, 115, 116] =
      Except.error BluetoothAddressParseError.IncorrectSegments ∧
    from_str [67, 56, 58, 70, 68, 58, 90, 90, 58, 49, 57, 58, 55, 70, 58, 67, 68] =
      Except.error BluetoothAddressParseError.InvalidNumber :=
  ⟨C8_parse_fully_specified.1 [116, 101, 115, 116] (by decide),
   C8_parse_fully_specified.2.1 _ (by decide) ⟨[90, 90], by decide, by decide⟩⟩

/-! ### Helper lemmas relating hex digits and uppercasing -/

theorem hexDigitVal_lt16 (c v : Nat) (h : hexDigitVal c = some v) : v < 16 := by
  unfold hexDigitVal at h
  split at h
  · simp only [Option.some.injEq] at h
    omega
  · split at h
    · simp only [Option.some.injEq] at h
      omega
    · split at h
      · simp only [Option.some.injEq] at h
        omega
      · exact Option.noConfusion h

theorem hexDigitVal_le102 (c v : Nat) (h : hexDigitVal c = some v) : c ≤ 102 := by
  by_contra hc
  push_neg at hc
  unfold hexDigitVal at h
  rw [if_neg (by omega), if_neg (by omega), if_neg (by omega)] at h
  exact Option.noConfusion h

theorem hexDigitVal_ne_plus (c v : Nat) (h : hexDigitVal c = some v) : ¬ c = 43 := by
  intro e
  subst e
  have hn : hexDigitVal 43 = none := by decide
  rw [hn] at h
  exact Option.noConfusion h

theorem toHexDigit_toUpper_aux :
    ∀ c ≤ 102, ∀ v < 16, hexDigitVal c = some v → toHexDigit v = toUpperCode c := by
  decide

theorem toHexDigit_toUpper (c v : Nat) (h : hexDigitVal c = some v) :
    toHexDigit v = toUpperCode c :=
  toHexDigit_toUpper_aux c (hexDigitVal_le102 c v h) v (hexDigitVal_lt16 c v h) h

theorem fromStrRadix16_pair (a b va vb : Nat)
    (ha : hexDigitVal a = some va) (hb : hexDigitVal b = some vb) :
    fromStrRadix16 [a, b] = some (va * 16 + vb) := by
  have hva := hexDigitVal_lt16 a va ha
  have hvb := hexDigitVal_lt16 b vb hb
  have hne : ¬ a = 43 := hexDigitVal_ne_plus a va ha
  simp only [fromStrRadix16, if_neg hne, fromStrRadix16Loop, ha, hb]
  rw [if_neg (show ¬ 255 < 0 * 16 + va by omega)]
  rw [if_neg (show ¬ 255 < (0 * 16 + va) * 16 + vb by omega)]
  simp only [Option.some.injEq]
  omega

theorem isHexPair_elim : ∀ p : List Nat, isHexPair p = true →
    ∃ a b va vb, p = [a, b] ∧ hexDigitVal a = some va ∧ hexDigitVal b = some vb
  | [a, b], h => by
    simp only [isHexPair, Bool.and_eq_true, isHexDigitCode,
      Option.isSome_iff_exists] at h
    rcases h with ⟨⟨va, hva⟩, vb, hvb⟩
    exact ⟨a, b, va, vb, rfl, hva, hvb⟩
  | [], h => by simp [isHexPair] at h
  | [_], h => by simp [isHexPair] at h
  | _ :: _ :: _ :: _, h => by simp [isHexPair] at h

theorem formatByte_pair (a b va vb : Nat)
    (ha : hexDigitVal a = some va) (hb : hexDigitVal b = some vb) :
    formatByte (va * 16 + vb) = [toUpperCode a, toUpperCode b] := by
  have hvb := hexDigitVal_lt16 b vb hb
  have h1 : (va * 16 + vb) / 16 = va := by omega
  have h2 : (va * 16 + vb) % 16 = vb := by omega
  unfold formatByte
  rw [h1, h2, toHexDigit_toUpper a va ha, toHexDigit_toUpper b vb hb]

theorem addrBytes_assemble (w0 w1 w2 w3 w4 w5 : Nat)
    (h0 : w0 < 256) (h1 : w1 < 256) (h2 : w2 < 256)
    (h3 : w3 < 256) (h4 : w4 < 256) (h5 : w5 < 256) :
    addrBytes (w0 * 256 ^ 5 + w1 * 256 ^ 4 + w2 * 256 ^ 3 +
        w3 * 256 ^ 2 + w4 * 256 + w5) = [w0, w1, w2, w3, w4, w5] := by
  have e40 : (2 : Nat) ^ 40 = 1099511627776 := by norm_num
  have e32 : (2 : Nat) ^ 32 = 4294967296 := by norm_num
  have e24 : (2 : Nat) ^ 24 = 16777216 := by norm_num
  have e16 : (2 : Nat) ^ 16 = 65536 := by norm_num
  have e8 : (2 : Nat) ^ 8 = 256 := by norm_num
  have f5 : (256 : Nat) ^ 5 = 1099511627776 := by norm_num
  have f4 : (256 : Nat) ^ 4 = 4294967296 := by norm_num
  have f3 : (256 : Nat) ^ 3 = 16777216 := by norm_num
  have f2 : (256 : Nat) ^ 2 = 65536 := by norm_num
  unfold addrBytes
  rw [e40, e32, e24, e16, e8, f5, f4, f3, f2]
  simp only [List.cons.injEq, and_true]
  refine ⟨by omega, by omega, by omega, by omega, by omega, by omega⟩

/-- C5 (amended): for every string that splits on the colon into exactly
six segments, each consisting of exactly two base-16 digits, formatting
the parsed address reproduces the uppercased input. -/
theorem C5_format_parse_roundtrip (s p0 p1 p2 p3 p4 p5 : List Nat)
    (hsplit : splitOnColon s = [p0, p1, p2, p3, p4, p5])
    (h0 : isHexPair p0 = true) (h1 : isHexPair p1 = true) (h2 : isHexPair p2 = true)
    (h3 : isHexPair p3 = true) (h4 : isHexPair p4 = true) (h5 : isHexPair p5 = true) :
    ∃ v, from_str s = Except.ok v ∧ hex_string v = s.map toUpperCode := by
  obtain ⟨a0, b0, va0, vb0, rfl, ha0, hb0⟩ := isHexPair_elim p0 h0
  obtain ⟨a1, b1, va1, vb1, rfl, ha1, hb1⟩ := isHexPair_elim p1 h1
  obtain ⟨a2, b2, va2, vb2, rfl, ha2, hb2⟩ := isHexPair_elim p2 h2
  obtain ⟨a3, b3, va3, vb3, rfl, ha3, hb3⟩ := isHexPair_elim p3 h3
  obtain ⟨a4, b4, va4, vb4, rfl, ha4, hb4⟩ := isHexPair_elim p4 h4
  obtain ⟨a5, b5, va5, vb5, rfl, ha5, hb5⟩ := isHexPair_elim p5 h5
  have w0 := fromStrRadix16_pair _ _ _ _ ha0 hb0
  have w1 := fromStrRadix16_pair _ _ _ _ ha1 hb1
  have w2 := fromStrRadix16_pair _ _ _ _ ha2 hb2
  have w3 := fromStrRadix16_pair _ _ _ _ ha3 hb3
  have w4 := fromStrRadix16_pair _ _ _ _ ha4 hb4
  have w5 := fromStrRadix16_pair _ _ _ _ ha5 hb5
  have hv : from_str s = Except.ok ((va0 * 16 + vb0) * 256 ^ 5 + (va1 * 16 + vb1) * 256 ^ 4 +
      (va2 * 16 + vb2) * 256 ^ 3 + (va3 * 16 + vb3) * 256 ^ 2 +
      (va4 * 16 + vb4) * 256 + (va5 * 16 + vb5)) := by
    rw [from_str_eq_of_split6 _ _ _ _ _ _ _ hsplit,
        parseRevLoop6 _ _ _ _ _ _ _ _ _ _ _ _ w5 w4 w3 w2 w1 w0]
  have hlt : ∀ x y : Nat, hexDigitVal x = some y → y < 16 := hexDigitVal_lt16
  have hb' : addrBytes ((va0 * 16 + vb0) * 256 ^ 5 + (va1 * 16 + vb1) * 256 ^ 4 +
      (va2 * 16 + vb2) * 256 ^ 3 + (va3 * 16 + vb3) * 256 ^ 2 +
      (va4 * 16 + vb4) * 256 + (va5 * 16 + vb5)) =
      [va0 * 16 + vb0, va1 * 16 + vb1, va2 * 16 + vb2,
       va3 * 16 + vb3, va4 * 16 + vb4, va5 * 16 + vb5] := by
    refine addrBytes_assemble _ _ _ _ _ _ ?_ ?_ ?_ ?_ ?_ ?_
    · have := hlt _ _ ha0; have := hlt _ _ hb0; omega
    · have := hlt _ _ ha1; have := hlt _ _ hb1; omega
    · have := hlt _ _ ha2; have := hlt _ _ hb2; omega
    · have := hlt _ _ ha3; have := hlt _ _ hb3; omega
    · have := hlt _ _ ha4; have := hlt _ _ hb4; omega
    · have := hlt _ _ ha5; have := hlt _ _ hb5; omega
  have hjs : s = joinColon [[a0, b0], [a1, b1], [a2, b2], [a3, b3], [a4, b4], [a5, b5]] := by
    have hj := joinColon_splitOnColon s
    rw [hsplit] at hj
    exact hj.symm
  refine ⟨_, hv, ?_⟩
  have hf : hex_string ((va0 * 16 + vb0) * 256 ^ 5 + (va1 * 16 + vb1) * 256 ^ 4 +
      (va2 * 16 + vb2) * 256 ^ 3 + (va3 * 16 + vb3) * 256 ^ 2 +
      (va4 * 16 + vb4) * 256 + (va5 * 16 + vb5)) =
      joinColon [[toUpperCode a0, toUpperCode b0], [toUpperCode a1, toUpperCode b1],
        [toUpperCode a2, toUpperCode b2], [toUpperCode a3, toUpperCode b3],
        [toUpperCode a4, toUpperCode b4], [toUpperCode a5, toUpperCode b5]] := by
    unfold hex_string
    rw [hb']
    simp only [List.map]
    rw [formatByte_pair _ _ _ _ ha0 hb0, formatByte_pair _ _ _ _ ha1 hb1,
        formatByte_pair _ _ _ _ ha2 hb2, formatByte_pair _ _ _ _ ha3 hb3,
        formatByte_pair _ _ _ _ ha4 hb4, formatByte_pair _ _ _ _ ha5 hb5]
  have h58 : toUpperCode 58 = 58 := by decide
  rw [hf, hjs]
  simp [joinColon, h58]

/-- C5 counterexample: the string C:00:00:00:00:00 splits into six
segments that each parse as a base-16 byte in range, yet formatting the
parsed address yields 0C:00:00:00:00:00, which is not the uppercased
input. -/
theorem C5_counterexample :
    (splitOnColon [67, 58, 48, 48, 58, 48, 48, 58, 48, 48, 58, 48, 48, 58, 48, 48]).length = 6 ∧
    (∀ p ∈ splitOnColon [67, 58, 48, 48, 58, 48, 48, 58, 48, 48, 58, 48, 48, 58, 48, 48],
      (fromStrRadix16 p).isSome = true) ∧
    from_str [67, 58, 48, 48, 58, 48, 48, 58, 48, 48, 58, 48, 48, 58, 48, 48] =
      Except.ok 13194139533312 ∧
    hex_string 13194139533312 ≠
      [67, 58, 48, 48, 58, 48, 48, 58, 48, 48, 58, 48, 48, 58, 48, 48].map toUpperCode := by
  refine ⟨by decide, by decide, rfl, by decide⟩

/-- C5 witness at the lowercased known vector c8:fd:19:12:7f:cd. -/
theorem C5_format_parse_roundtrip_witness :
    ∃ v, from_str [99, 56, 58, 102, 100, 58, 49, 57, 58, 49, 50, 58, 55, 102, 58, 99, 100] =
        Except.ok v ∧
      hex_string v =
        [99, 56, 58, 102, 100, 58, 49, 57, 58, 49, 50, 58, 55, 102, 58, 99, 100].map toUpperCode :=
  C5_format_parse_roundtrip _ [99, 56] [102, 100] [49, 57] [49, 50] [55, 102] [99, 100]
    (by decide) (by decide) (by decide) (by decide) (by decide) (by decide) (by decide)

/-! ### Claim theorems for the properties decoder -/

/-- C9: capability decode: raw value 2 decodes to a set containing only
READ; raw value 18 decodes to exactly READ and NOTIFY; and any raw u32
with a set bit outside the ten defined flag bits fails to decode rather
than dropping the unrecognized bits. -/
theorem C9_capability_decode :
    (CharacteristicProperties.from_bits 2 = some CharacteristicProperties.READ ∧
      CharacteristicProperties.contains CharacteristicProperties.READ
        CharacteristicProperties.READ = true ∧
      ∀ f ∈ CharacteristicProperties.flagList, f ≠ CharacteristicProperties.READ →
        CharacteristicProperties.contains CharacteristicProperties.READ f = false) ∧
    (CharacteristicProperties.from_bits 18 = some ⟨18⟩ ∧
      ∀ f ∈ CharacteristicProperties.flagList,
        (CharacteristicProperties.contains ⟨18⟩ f = true ↔
          (f = CharacteristicProperties.READ ∨ f = CharacteristicProperties.NOTIFY))) ∧
    (∀ v : Nat, v < 2 ^ 32 → (∃ i, 10 ≤ i ∧ v.testBit i = true) →
      CharacteristicProperties.from_bits v = none) := by
  refine ⟨by decide, by decide, ?_⟩
  intro v hv hex
  rcases hex with ⟨i, hi, hbit⟩
  have hi32 : i < 32 := by
    by_contra h32
    push_neg at h32
    have hvi : v < 2 ^ i :=
      lt_of_lt_of_le hv (Nat.pow_le_pow_right (by norm_num) h32)
    rw [Nat.testBit_lt_two_pow hvi] at hbit
    exact Bool.noConfusion hbit
  have hmask : Nat.testBit (2 ^ 32 - 1 - 1023) i = true := by
    interval_cases i <;> decide
  have hand : (v &&& (2 ^ 32 - 1 - 1023)).testBit i = true := by
    rw [Nat.testBit_and, hbit, hmask]
    rfl
  have hne : ¬ v &&& (2 ^ 32 - 1 - 1023) = 0 := by
    intro h0
    rw [h0, Nat.zero_testBit] at hand
    exact Bool.noConfusion hand
  unfold CharacteristicProperties.from_bits
  rw [show CharacteristicProperties.allFlags.bits = 1023 from rfl, if_neg hne]

/-- C9 witness: raw value 1024 has bit 10 set, outside the defined flags,
and fails to decode; READ does not contain NOTIFY. -/
theorem C9_capability_decode_witness :
    CharacteristicProperties.from_bits 1024 = none ∧
    CharacteristicProperties.contains CharacteristicProperties.READ
      CharacteristicProperties.NOTIFY = false :=
  ⟨C9_capability_decode.2.2 1024 (by norm_num) ⟨10, by norm_num, rfl⟩,
   C9_capability_decode.1.2.2 CharacteristicProperties.NOTIFY (by decide) (by decide)⟩

/-! ### Claim theorems for the CharacteristicIO state machine -/

/-- C1 counterexample: a characteristic whose decoded properties are
WRITE only (raw value 8, READ absent) is constructed into a
CharacteristicIO successfully, without a panic, so construction does not
enforce the READ precondition. -/
theorem C1_counterexample :
    Characteristic.properties ⟨some 8⟩ = some ⟨8⟩ ∧
    CharacteristicProperties.contains ⟨8⟩ CharacteristicProperties.READ = false ∧
    CharacteristicIo.new ⟨some 8⟩ ⟨true, true⟩ =
      (Outcome.ok ⟨⟨some 8⟩, [], none⟩, []) :=
  ⟨rfl, rfl, rfl⟩

/-- C1 (amended): construction never panics and performs no READ check;
read panics, without any platform call or state change, when the decoded
properties lack READ; write panics before any platform call when the
decoded properties lack WRITE. -/
theorem C1_capability_preconditions :
    (∀ c env, (CharacteristicIo.new c env).1 ≠
      (Outcome.panicked : Outcome CharacteristicIo)) ∧
    (∀ st env len props,
      Characteristic.properties st.characteristic = some props →
      CharacteristicProperties.contains props CharacteristicProperties.READ = false →
      CharacteristicIo.read st env len = (Outcome.panicked, st, [])) ∧
    (∀ st wOk data props,
      Characteristic.properties st.characteristic = some props →
      CharacteristicProperties.contains props CharacteristicProperties.WRITE = false →
      CharacteristicIo.write st wOk data = (Outcome.panicked, st, [])) := by
  refine ⟨?_, ?_, ?_⟩
  · intro c env
    cases hp : c.properties with
    | none => simp [CharacteristicIo.new, hp]
    | some props =>
      by_cases hn : props.contains CharacteristicProperties.NOTIFY = true
      · cases hcw : env.cccdWriteOk with
        | false =>
          simp [CharacteristicIo.new, CharacteristicIo.configure_notify, hp, hn, hcw]
        | true =>
          cases hrg : env.registerOk with
          | false =>
            simp [CharacteristicIo.new, CharacteristicIo.configure_notify, hp, hn, hcw, hrg]
          | true =>
            simp [CharacteristicIo.new, CharacteristicIo.configure_notify, hp, hn, hcw, hrg]
      · simp [CharacteristicIo.new, hp, hn]
  · intro st env len props hp hc
    simp [CharacteristicIo.read, hp, hc]
  · intro st wOk data props hp hc
    simp [CharacteristicIo.write, hp, hc]

/-- C1 witness: read on a WRITE-only characteristic panics; write on a
READ-only characteristic panics; construction on the WRITE-only
characteristic does not panic. -/
theorem C1_capability_preconditions_witness :
    (CharacteristicIo.new ⟨some 8⟩ ⟨true, true⟩).1 ≠
      (Outcome.panicked : Outcome CharacteristicIo) ∧
    CharacteristicIo.read ⟨⟨some 8⟩, [], none⟩ ⟨none, none⟩ 4 =
      (Outcome.panicked, ⟨⟨some 8⟩, [], none⟩, []) ∧
    CharacteristicIo.write ⟨⟨some 2⟩, [], none⟩ true [7] =
      (Outcome.panicked, ⟨⟨some 2⟩, [], none⟩, []) :=
  ⟨C1_capability_preconditions.1 ⟨some 8⟩ ⟨true, true⟩,
   C1_capability_preconditions.2.1 ⟨⟨some 8⟩, [], none⟩ ⟨none, none⟩ 4 ⟨8⟩ rfl rfl,
   C1_capability_preconditions.2.2 ⟨⟨some 2⟩, [], none⟩ true [7] ⟨2⟩ rfl rfl⟩

/-- C2 counterexample: with a non-empty buffer and two payloads queued on
the notify channel, a read pulls only the first payload into the buffer;
the second stays queued, so the read does not drain all already-queued
payloads. -/
theorem C2_counterexample :
    CharacteristicIo.read ⟨⟨some 18⟩, [0], some [[1], [2]]⟩ ⟨none, none⟩ 1 =
      (Outcome.ok (1, [0]), ⟨⟨some 18⟩, [1], some [[2]]⟩, []) ∧
    some [[2]] ≠ (some [] : Option (List (List Nat))) :=
  ⟨rfl, by decide⟩

/-- C2 (amended): on a notify-fed, READ-capable handle: a read with an
empty buffer and empty queue waits for at most one payload, returning
zero bytes when none arrives within the one-second timeout; a queued
payload is returned at once; every read pulls at most one payload from
the channel (with a non-empty buffer the pull is a non-blocking try);
and no platform call is ever issued. -/
theorem C2_notify_fed_read (c : Characteristic) (props : CharacteristicProperties)
    (buf : List Nat) (queue : List (List Nat)) (env : ReadEnv) (len : Nat)
    (hp : c.properties = some props)
    (hr : CharacteristicProperties.contains props CharacteristicProperties.READ = true) :
    notifyReadTimeoutSecs = 1 ∧
    (buf = [] → queue = [] → env.timedArrival = none →
      CharacteristicIo.read ⟨c, buf, some queue⟩ env len =
        (Outcome.ok (0, []), ⟨c, [], some []⟩, [])) ∧
    (∀ d, buf = [] → queue = [] → env.timedArrival = some d →
      CharacteristicIo.read ⟨c, buf, some queue⟩ env len =
        (Outcome.ok (min len d.length, d.take (min len d.length)),
         ⟨c, d.drop (min len d.length), some []⟩, [])) ∧
    (∀ p rest, queue = p :: rest →
      CharacteristicIo.read ⟨c, buf, some queue⟩ env len =
        (Outcome.ok (min len (buf ++ p).length, (buf ++ p).take (min len (buf ++ p).length)),
         ⟨c, (buf ++ p).drop (min len (buf ++ p).length), some rest⟩, [])) ∧
    (buf ≠ [] → queue = [] →
      CharacteristicIo.read ⟨c, buf, some queue⟩ env len =
        (Outcome.ok (min len buf.length, buf.take (min len buf.length)),
         ⟨c, buf.drop (min len buf.length), some []⟩, [])) := by
  refine ⟨rfl, ?_, ?_, ?_, ?_⟩
  · intro hb hq ht
    subst hb
    subst hq
    simp [CharacteristicIo.read, CharacteristicIo.readBody, CharacteristicIo.drain,
      hp, hr, ht]
  · intro d hb hq ht
    subst hb
    subst hq
    simp [CharacteristicIo.read, CharacteristicIo.readBody, CharacteristicIo.drain,
      hp, hr, ht]
  · intro p rest hq
    subst hq
    cases buf with
    | nil =>
      simp [CharacteristicIo.read, CharacteristicIo.readBody, CharacteristicIo.drain,
        hp, hr]
    | cons x xs =>
      simp [CharacteristicIo.read, CharacteristicIo.readBody, CharacteristicIo.drain,
        hp, hr]
  · intro hb hq
    subst hq
    cases buf with
    | nil => exact absurd rfl hb
    | cons x xs =>
      simp [CharacteristicIo.read, CharacteristicIo.readBody, CharacteristicIo.drain,
        hp, hr]

/-- C2 witness: a timed-out read on an empty buffer returns zero bytes
and leaves the handle unchanged. -/
theorem C2_notify_fed_read_witness :
    CharacteristicIo.read ⟨⟨some 18⟩, [], some []⟩ ⟨none, none⟩ 4 =
      (Outcome.ok (0, []), ⟨⟨some 18⟩, [], some []⟩, []) :=
  (C2_notify_fed_read ⟨some 18⟩ ⟨18⟩ [] [] ⟨none, none⟩ 4 rfl rfl).2.1 rfl rfl rfl

/-- C3: on a poll-fed (no notify channel), READ-capable handle: a
non-NOTIFY characteristic is constructed poll-fed; a read with an empty
buffer issues exactly one uncached platform fetch and, when the fetch
yields data, returns min(caller length, fetched length) bytes with the
remainder left buffered; when the fetch fails the error is returned with
the single fetch still traced; a read with a non-empty buffer issues no
platform fetch. -/
theorem C3_poll_fed_read (c : Characteristic) (props : CharacteristicProperties)
    (buf : List Nat) (env : ReadEnv) (len : Nat)
    (hp : c.properties = some props)
    (hr : CharacteristicProperties.contains props CharacteristicProperties.READ = true) :
    (props.contains CharacteristicProperties.NOTIFY = false →
      ∀ envN, CharacteristicIo.new c envN = (Outcome.ok ⟨c, [], none⟩, [])) ∧
    (buf = [] → ∀ d, env.fetch = some d →
      CharacteristicIo.read ⟨c, buf, none⟩ env len =
        (Outcome.ok (min len d.length, d.take (min len d.length)),
         ⟨c, d.drop (min len d.length), none⟩, [PlatformCall.uncachedRead])) ∧
    (buf = [] → env.fetch = none →
      CharacteristicIo.read ⟨c, buf, none⟩ env len =
        (Outcome.error, ⟨c, buf, none⟩, [PlatformCall.uncachedRead])) ∧
    (buf ≠ [] →
      CharacteristicIo.read ⟨c, buf, none⟩ env len =
        (Outcome.ok (min len buf.length, buf.take (min len buf.length)),
         ⟨c, buf.drop (min len buf.length), none⟩, [])) := by
  refine ⟨?_, ?_, ?_, ?_⟩
  · intro hn envN
    simp [CharacteristicIo.new, hp, hn]
  · intro hb d hf
    subst hb
    simp [CharacteristicIo.read, CharacteristicIo.readBody, CharacteristicIo.drain,
      Characteristic.read, hp, hr, hf]
  · intro hb hf
    subst hb
    simp [CharacteristicIo.read, CharacteristicIo.readBody, CharacteristicIo.drain,
      Characteristic.read, hp, hr, hf]
  · intro hb
    cases buf with
    | nil => exact absurd rfl hb
    | cons x xs =>
      simp [CharacteristicIo.read, CharacteristicIo.readBody, CharacteristicIo.drain,
        hp, hr]

/-- C3 witness: a poll-fed read with empty buffer on a READ-only
characteristic fetches three bytes, returns two of them and leaves one
buffered, with exactly one uncached fetch traced. -/
theorem C3_poll_fed_read_witness :
    CharacteristicIo.read ⟨⟨some 2⟩, [], none⟩ ⟨none, some [9, 8, 7]⟩ 2 =
      (Outcome.ok (2, [9, 8]), ⟨⟨some 2⟩, [7], none⟩, [PlatformCall.uncachedRead]) := by
  have h := (C3_poll_fed_read ⟨some 2⟩ ⟨2⟩ [] ⟨none, some [9, 8, 7]⟩ 2 rfl rfl).2.1
    rfl [9, 8, 7] rfl
  simpa using h

/-- C6 counterexample: on a notify-fed handle whose disable-notify write
call is accepted but whose async completion reports failure, drop logs
nothing: that failure of the disable write is silently discarded rather
than logged. -/
theorem C6_counterexample :
    CharacteristicIo.drop ⟨⟨some 18⟩, [], some []⟩ ⟨true, false⟩ =
      ([PlatformCall.writeCccd CccdValue.Disable], []) := rfl

/-- C6 (amended): dropping a notify-fed handle always attempts exactly
one disable-notify configuration write, whatever the platform outcome;
reads never change whether a handle is notify-fed, so the guarantee holds
regardless of prior reads; a failure of the immediate write call is
logged, while a failure reported at completion is silently discarded; no
failure is ever propagated (drop returns only its trace and log). -/
theorem C6_drop_disable_notify (st : CharacteristicIo) (queue : List (List Nat))
    (h : st.rx = some queue) :
    (∀ env, (CharacteristicIo.drop st env).1 = [PlatformCall.writeCccd CccdValue.Disable]) ∧
    (∀ env, env.initOk = false →
      (CharacteristicIo.drop st env).2 = [LogEvent.removeNotifyFailed]) ∧
    (∀ env len, ((CharacteristicIo.read st env len).2.1).rx.isSome = true) := by
  obtain ⟨c, buf, rx⟩ := st
  simp only at h
  subst h
  refine ⟨fun env => rfl, fun env hF => by simp [CharacteristicIo.drop, hF], ?_⟩
  intro env len
  cases hp : c.properties with
  | none =>
    simp [CharacteristicIo.read, CharacteristicIo.readBody, CharacteristicIo.drain, hp]
  | some props =>
    by_cases hr : props.contains CharacteristicProperties.READ = true
    · simp [CharacteristicIo.read, CharacteristicIo.readBody, CharacteristicIo.drain,
        hp, hr]
    · simp [CharacteristicIo.read, hp, hr]

/-- C6 witness: dropping a notify-fed handle whose disable write fails at
once produces exactly one disable write and one log entry. -/
theorem C6_drop_disable_notify_witness :
    (CharacteristicIo.drop ⟨⟨some 18⟩, [], some []⟩ ⟨false, false⟩).1 =
      [PlatformCall.writeCccd CccdValue.Disable] ∧
    (CharacteristicIo.drop ⟨⟨some 18⟩, [], some []⟩ ⟨false, false⟩).2 =
      [LogEvent.removeNotifyFailed] :=
  ⟨(C6_drop_disable_notify ⟨⟨some 18⟩, [], some []⟩ [] rfl).1 ⟨false, false⟩,
   (C6_drop_disable_notify ⟨⟨some 18⟩, [], some []⟩ [] rfl).2.1 ⟨false, false⟩ rfl⟩

/-- C7 counterexample: flush on a handle whose decoded properties are
READ only (raw value 2, WRITE absent) panics instead of returning
success, so flush is not an unconditional no-op success. -/
theorem C7_counterexample :
    CharacteristicIo.flush ⟨⟨some 2⟩, [], none⟩ =
      (Outcome.panicked, ⟨⟨some 2⟩, [], none⟩, []) := rfl

/-- C7 (amended): flush never issues a platform call and never changes
the handle state; it returns success whenever the decoded properties
contain WRITE or the properties cannot be decoded, and panics when the
decoded properties lack WRITE. -/
theorem C7_flush_no_op (st : CharacteristicIo) :
    ((CharacteristicIo.flush st).2.1 = st ∧ (CharacteristicIo.flush st).2.2 = []) ∧
    (∀ props, Characteristic.properties st.characteristic = some props →
      CharacteristicProperties.contains props CharacteristicProperties.WRITE = true →
      (CharacteristicIo.flush st).1 = Outcome.ok ()) ∧
    (Characteristic.properties st.characteristic = none →
      (CharacteristicIo.flush st).1 = Outcome.ok ()) ∧
    (∀ props, Characteristic.properties st.characteristic = some props →
      CharacteristicProperties.contains props CharacteristicProperties.WRITE = false →
      (CharacteristicIo.flush st).1 = Outcome.panicked) := by
  refine ⟨?_, ?_, ?_, ?_⟩
  · cases hp : Characteristic.properties st.characteristic with
    | none => simp [CharacteristicIo.flush, hp]
    | some props =>
      by_cases hw : props.contains CharacteristicProperties.WRITE = true
      · simp [CharacteristicIo.flush, hp, hw]
      · simp [CharacteristicIo.flush, hp, hw]
  · intro props hp hw
    simp [CharacteristicIo.flush, hp, hw]
  · intro hp
    simp [CharacteristicIo.flush, hp]
  · intro props hp hw
    simp [CharacteristicIo.flush, hp, hw]

/-- C7 witness: flush succeeds on a WRITE-capable handle and panics on a
READ-only handle. -/
theorem C7_flush_no_op_witness :
    (CharacteristicIo.flush ⟨⟨some 8⟩, [], none⟩).1 = Outcome.ok () ∧
    (CharacteristicIo.flush ⟨⟨some 2⟩, [], none⟩).1 = Outcome.panicked :=
  ⟨(C7_flush_no_op ⟨⟨some 8⟩, [], none⟩).2.1 ⟨8⟩ rfl rfl,
   (C7_flush_no_op ⟨⟨some 2⟩, [], none⟩).2.2.2 ⟨2⟩ rfl rfl⟩

/-- C10: when the properties cannot be decoded (failing platform call or
unrecognized bits), read, write and flush skip the capability gate: a
read never panics and an empty-buffer read proceeds to the platform
fetch, a write proceeds to the platform write call, and flush returns
success. -/
theorem C10_undecoded_properties_skip_gate (c : Characteristic)
    (hp : c.properties = none) :
    (∀ buf rx env len, (CharacteristicIo.read ⟨c, buf, rx⟩ env len).1 ≠
      (Outcome.panicked : Outcome (Nat × List Nat))) ∧
    (∀ env len, (CharacteristicIo.read ⟨c, [], none⟩ env len).2.2 =
      [PlatformCall.uncachedRead]) ∧
    (∀ buf rx wOk data, CharacteristicIo.write ⟨c, buf, rx⟩ wOk data =
      ((if wOk then Outcome.ok data.length else Outcome.error), ⟨c, buf, rx⟩,
       [PlatformCall.writeValue data])) ∧
    (∀ buf rx, CharacteristicIo.flush ⟨c, buf, rx⟩ = (Outcome.ok (), ⟨c, buf, rx⟩, [])) := by
  refine ⟨?_, ?_, ?_, ?_⟩
  · intro buf rx env len
    cases rx with
    | some queue =>
      simp [CharacteristicIo.read, CharacteristicIo.readBody, CharacteristicIo.drain, hp]
    | none =>
      cases buf with
      | nil =>
        cases hf : env.fetch with
        | none =>
          simp [CharacteristicIo.read, CharacteristicIo.readBody, CharacteristicIo.drain,
            Characteristic.read, hp, hf]
        | some d =>
          simp [CharacteristicIo.read, CharacteristicIo.readBody, CharacteristicIo.drain,
            Characteristic.read, hp, hf]
      | cons x xs =>
        simp [CharacteristicIo.read, CharacteristicIo.readBody, CharacteristicIo.drain, hp]
  · intro env len
    cases hf : env.fetch with
    | none =>
      simp [CharacteristicIo.read, CharacteristicIo.readBody, CharacteristicIo.drain,
        Characteristic.read, hp, hf]
    | some d =>
      simp [CharacteristicIo.read, CharacteristicIo.readBody, CharacteristicIo.drain,
        Characteristic.read, hp, hf]
  · intro buf rx wOk data
    cases wOk with
    | false => simp [CharacteristicIo.write, Characteristic.write, hp]
    | true => simp [CharacteristicIo.write, Characteristic.write, hp]
  · intro buf rx
    simp [CharacteristicIo.flush, hp]

/-- C10 witness: with an undecodable raw mask (2000 has bit 10 set) a
write reaches the platform write call and succeeds; with a failing
properties call flush returns success. -/
theorem C10_undecoded_properties_skip_gate_witness :
    CharacteristicIo.write ⟨⟨some 2000⟩, [], none⟩ true [5] =
      (Outcome.ok 1, ⟨⟨some 2000⟩, [], none⟩, [PlatformCall.writeValue [5]]) ∧
    CharacteristicIo.flush ⟨⟨none⟩, [], none⟩ = (Outcome.ok (), ⟨⟨none⟩, [], none⟩, []) := by
  have h1 := (C10_undecoded_properties_skip_gate ⟨some 2000⟩ rfl).2.2.1 [] none true [5]
  have h2 := (C10_undecoded_properties_skip_gate ⟨none⟩ rfl).2.2.2 [] none
  exact ⟨by simpa using h1, h2⟩

end Wible
